import Mathlib

/-!
Verification of the UDP ping client (`src/ping_client.py`) against its
natural-language specification.  The Python source is shallowly embedded:
bytes become `List Nat` (entries `< 256`), Python integers become `Nat`
(or `Int` where the source can go negative), code that can raise an
exception becomes `Option`-valued, and the per-probe thread body
`send_ping` becomes a pure transition on an explicit `ClientState`.
-/

namespace PingClient

/-- State of the mutable per-run fields of the Python `PingClient` object
that the probe threads update (`request_count`, `reply_count`,
`rtt_list`).  `thread_list`, the timestamps and the configuration fields
do not participate in any claim about counters or statistics. -/
structure ClientState where
  request_count : Nat
  reply_count : Nat
  rtt_list : List Nat
deriving DecidableEq, Repr

/-- The counters at `__init__`: both counts `0`, empty RTT list. -/
def initState : ClientState :=
  { request_count := 0, reply_count := 0, rtt_list := [] }

/-- One iteration of the loop body of `calculate_checksum`:
`w = (message[i]) + (message[i + 1] << 8) << 8` (Python precedence makes
this `(message[i] + (message[i+1] << 8)) << 8`), then
`s = ((w + s) & 0xffff) + ((w + s) >> 16)`.  The loop
`range(0, len(message)-1, 2)` consumes bytes two at a time and ignores a
trailing odd byte, hence the catch-all case. -/
def csAux : Nat → List Nat → Nat
  | s, a :: b :: rest =>
      csAux (((a + b * 256) * 256 + s) % 65536 + ((a + b * 256) * 256 + s) / 65536) rest
  | s, _ => s

/-- `PingClient.calculate_checksum` of `src/ping_client.py`: the loop of
`csAux` started with `s = 0`. -/
def calculate_checksum (message : List Nat) : Nat := csAux 0 message

/-- `PingClient.bit_flip`: `0xffff - checksum`.  Python subtraction is
signed, so the result is an `Int`; it goes negative exactly when
`checksum > 0xffff`, and `(negative).to_bytes(2, 'big')` raises
`OverflowError` in the source. -/
def bit_flip (checksum : Nat) : Int := 65535 - (checksum : Int)

/-- Python `n.to_bytes(2, byteorder='big')` for `0 ≤ n < 2^16`:
the two big-endian bytes of `n`. -/
def toBytes2 (n : Nat) : List Nat := [n / 256 % 256, n % 256]

/-- Python `n.to_bytes(6, byteorder='big')` for `0 ≤ n < 2^48`:
the six big-endian bytes of `n`. -/
def toBytes6 (n : Nat) : List Nat :=
  [n / 2 ^ 40 % 256, n / 2 ^ 32 % 256, n / 2 ^ 24 % 256, n / 2 ^ 16 % 256, n / 2 ^ 8 % 256,
    n % 256]

/-- The draft message of `build_message` before the checksum is filled
in: type `8`, code `0`, zeroed checksum field, then the big-endian
identifier, sequence number and 48-bit timestamp.  The identifier
(`os.getpid() % 65536`) and the timestamp (`int(time.time() * 1000)`)
are ambient values in the source and are parameters here. -/
def draft_message (seq ident ts : Nat) : List Nat :=
  [8, 0] ++ toBytes2 0 ++ toBytes2 ident ++ toBytes2 seq ++ toBytes6 ts

/-- `PingClient.build_message`: build the draft, checksum it, flip the
checksum and re-emit the 14 bytes with the checksum field filled in.
`none` models the paths on which the source raises: a field out of range
for its `to_bytes` width, or a flipped checksum outside `0..0xffff`
(Python `to_bytes(2, 'big')` raises `OverflowError` on a negative or
too-large value). -/
def build_message (seq ident ts : Nat) : Option (List Nat) :=
  if seq < 65536 ∧ ident < 65536 ∧ ts < 2 ^ 48 then
    if 0 ≤ bit_flip (calculate_checksum (draft_message seq ident ts)) ∧
        bit_flip (calculate_checksum (draft_message seq ident ts)) < 65536 then
      some ([8, 0] ++
        toBytes2 (bit_flip (calculate_checksum (draft_message seq ident ts))).toNat ++
        toBytes2 ident ++ toBytes2 seq ++ toBytes6 ts)
    else none
  else none

/-- The 16-bit big-endian words of a byte string: word `i` is
`bytes[2*i] * 256 + bytes[2*i+1]`.  Used only by the reference checksum
below. -/
def beWords : List Nat → List Nat
  | a :: b :: rest => (a * 256 + b) :: beWords rest
  | _ => []

/-- End-around carry folding, `fuel`-bounded: replace `s` by
`(s & 0xffff) + (s >> 16)` until no carry remains.  One fold strictly
decreases any `s ≥ 2^16`, so `fuel = s` always suffices and the fuel
never runs out on the uses below. -/
def foldCarry : Nat → Nat → Nat
  | 0, s => s
  | fuel + 1, s => if s < 65536 then s else foldCarry fuel (s % 65536 + s / 65536)

/-- Modelled from the spec (§4.1): the reference one's-complement
checksum the specification describes — "one's-complement sum over 16-bit
big-endian words, folding any carry beyond 16 bits back into the low 16
bits, repeated until no carry remains".  This definition follows the
spec's words and is compared against `calculate_checksum`, which is
translated from the source. -/
def reference_checksum (message : List Nat) : Nat :=
  foldCarry (beWords message).sum (beWords message).sum

/-- Console output of the client, one constructor per `print` in
`send_ping`, carrying exactly the data interpolated into the printed
line: the run-start announcement (`PING ...`), the checksum warning with
the sequence number read from the reply, and the success line (`PONG`)
with that sequence number and the measured RTT. -/
inductive Event where
  | pingStart : Event
  | warning : Nat → Event
  | pong : Nat → Nat → Event
deriving DecidableEq, Repr

/-- What the transport did for one probe: a datagram arrived before the
deadline (with its payload bytes and the measured RTT in ms), the
receive deadline elapsed (`socket.timeout`), or the endpoint
bind/send/receive raised some other exception. -/
inductive TransportResult where
  | reply : List Nat → Nat → TransportResult
  | timeout : TransportResult
  | failure : TransportResult
deriving DecidableEq, Repr

/-- `int.from_bytes(l, byteorder='big')` on a byte slice of any
length. -/
def int_from_bytes (l : List Nat) : Nat :=
  l.foldl (fun acc b => acc * 256 + b) 0

/-- The sequence number `send_ping` reads from a reply:
`int.from_bytes(data[6:8], byteorder='big')`, taken from the fixed byte
offset `6..8` whatever the checksum verification later says. -/
def seq_from_reply (data : List Nat) : Nat :=
  int_from_bytes ((data.drop 6).take 2)

/-- The line printed before the `try` block: `PING ...` exactly for the
first probe (`seq_num == 1`). -/
def startEvents (seq : Nat) : List Event :=
  if seq = 1 then [Event.pingStart] else []

/-- `PingClient.send_ping` as a transition on the shared counters,
parametrised by what the transport did.  On a reply the source appends
the RTT and increments `request_count` before it verifies the checksum,
then either warns (sum `≠ 65535`) or prints `PONG` and increments
`reply_count`.  On `socket.timeout` the `except` clause increments
`request_count` only.  Any other exception is uncaught by `send_ping`
(`none`): the probe thread dies with no counter update and no recorded
outcome — every mutation of the shared state happens after `recvfrom`
returns, so a failing bind/build/send/receive leaves the state
untouched. -/
def send_ping (st : ClientState) (seq : Nat) (tr : TransportResult) :
    Option (ClientState × List Event) :=
  match tr with
  | TransportResult.failure => none
  | TransportResult.timeout =>
      some ({ st with request_count := st.request_count + 1 }, startEvents seq)
  | TransportResult.reply data rtt =>
      let st1 : ClientState :=
        { st with rtt_list := st.rtt_list ++ [rtt], request_count := st.request_count + 1 }
      if calculate_checksum data ≠ 65535 then
        some (st1, startEvents seq ++ [Event.warning (seq_from_reply data)])
      else
        some ({ st1 with reply_count := st1.reply_count + 1 },
          startEvents seq ++ [Event.pong (seq_from_reply data) rtt])

/-- Effect of one finished probe thread on the shared state: the state
`send_ping` leaves behind, or the unchanged state when the thread died
from an uncaught exception (Python only prints the traceback of a dead
thread; the run and the sibling threads continue). -/
def run_step (st : ClientState) (seq : Nat) (tr : TransportResult) : ClientState :=
  match send_ping st seq tr with
  | some (st', _) => st'
  | none => st

/-- The shared state after all probe threads of a run have finished,
folded in completion order over the per-probe `(seq_num, transport
result)` pairs.  Each thread performs its updates between `recvfrom`
returning and the thread ending, so any interleaving of the threads
yields the same final counters; the fold models one such order. -/
def run_fold : ClientState → List (Nat × TransportResult) → ClientState
  | st, [] => st
  | st, p :: rest => run_fold (run_step st p.1 p.2) rest

/-- The delays handed to the thread machinery by `PingClient.run`, per
probe in dispatch order and in the unit of `self.period`: the first
probe is a plain `Thread` started immediately (delay `0`), and each of
the `count - 1` remaining probes is a `threading.Timer` started at once
with `interval=self.period`. -/
def dispatch_delays (count percycle : Nat) : List Nat :=
  0 :: List.replicate (count - 1) percycle

/-- Round `a / b` (for `b ≠ 0`) to the nearest integer, ties to even —
the behaviour of Python's `round`.  The source applies `round` to a
float; this is the exact-rational counterpart, which agrees at every
magnitude exercised by the client. -/
def roundHalfEven (a b : Nat) : Nat :=
  let q := a / b
  let r := a % b
  if 2 * r < b then q else if b < 2 * r then q + 1 else if q % 2 = 0 then q else q + 1

/-- `min(l)`, `round(sum(l)/len(l))` and `max(l)` of a nonempty RTT
list, as computed by `summary_statistics`. -/
def rtt_stats : List Nat → Nat × Nat × Nat
  | [] => (0, 0, 0)
  | x :: xs =>
      (xs.foldl min x, roundHalfEven (x :: xs).sum (x :: xs).length, xs.foldl max x)

/-- The fields of the summary block printed by
`PingClient.summary_statistics`. -/
structure Summary where
  transmitted : Nat
  received : Nat
  loss : Nat
  total_time : Nat
  rtt_min : Nat
  rtt_avg : Nat
  rtt_max : Nat
deriving DecidableEq, Repr

/-- `PingClient.summary_statistics` over the final counters and the
elapsed wall time.  `round((1 - reply_count / request_count) * 100)`
raises `ZeroDivisionError` when `request_count = 0` (first `none`);
when `reply_count` is truthy the source takes `min`/`max` of
`rtt_list`, which raises `ValueError` on an empty list (second `none`);
otherwise the RTT line is the fixed `0/0/0` placeholder.  In every
reachable state `reply_count ≤ len(rtt_list)`, so the second `none` is
never taken at run time. -/
def summary_statistics (st : ClientState) (total_time : Nat) : Option Summary :=
  if st.request_count = 0 then none
  else
    let loss := roundHalfEven ((st.request_count - st.reply_count) * 100) st.request_count
    if st.reply_count ≠ 0 then
      match st.rtt_list with
      | [] => none
      | x :: xs =>
          some { transmitted := st.request_count, received := st.reply_count, loss := loss,
                 total_time := total_time,
                 rtt_min := (rtt_stats (x :: xs)).1,
                 rtt_avg := (rtt_stats (x :: xs)).2.1,
                 rtt_max := (rtt_stats (x :: xs)).2.2 }
    else
      some { transmitted := st.request_count, received := st.reply_count, loss := loss,
             total_time := total_time, rtt_min := 0, rtt_avg := 0, rtt_max := 0 }

/-- Contribution of one probe's transport result to `request_count`:
both the reply path and the timeout handler increment it once; a
non-timeout failure reaches neither increment. -/
def countedOne : TransportResult → Nat
  | TransportResult.failure => 0
  | _ => 1

/-- Contribution of one probe's transport result to `reply_count`: one
exactly when a reply arrived and its full-message checksum is
`65535`. -/
def validOne : TransportResult → Nat
  | TransportResult.reply data _ => if calculate_checksum data = 65535 then 1 else 0
  | _ => 0

/-- The RTTs a probe's transport result appends to `rtt_list`: the
measured RTT of any in-time reply, valid checksum or not. -/
def rttsOf : TransportResult → List Nat
  | TransportResult.reply _ rtt => [rtt]
  | _ => []

/-- Total `request_count` contribution of a list of probe results. -/
def sentCount : List (Nat × TransportResult) → Nat
  | [] => 0
  | p :: rest => countedOne p.2 + sentCount rest

/-- Total `reply_count` contribution of a list of probe results. -/
def validCount : List (Nat × TransportResult) → Nat
  | [] => 0
  | p :: rest => validOne p.2 + validCount rest

/-- The RTTs of all in-time replies of a run, in fold order. -/
def repliesRtts : List (Nat × TransportResult) → List Nat
  | [] => []
  | p :: rest => rttsOf p.2 ++ repliesRtts rest

end PingClient

namespace PingClient

theorem run_step_eq (st : ClientState) (seq : Nat) (tr : TransportResult) :
    run_step st seq tr =
      { request_count := st.request_count + countedOne tr,
        reply_count := st.reply_count + validOne tr,
        rtt_list := st.rtt_list ++ rttsOf tr } := by
  cases tr with
  | failure => simp [run_step, send_ping, countedOne, validOne, rttsOf]
  | timeout => simp [run_step, send_ping, countedOne, validOne, rttsOf]
  | reply data rtt =>
      by_cases h : calculate_checksum data = 65535 <;>
        simp [run_step, send_ping, countedOne, validOne, rttsOf, h]

theorem run_fold_eq (probes : List (Nat × TransportResult)) (st : ClientState) :
    run_fold st probes =
      { request_count := st.request_count + sentCount probes,
        reply_count := st.reply_count + validCount probes,
        rtt_list := st.rtt_list ++ repliesRtts probes } := by
  induction probes generalizing st with
  | nil => simp [run_fold, sentCount, validCount, repliesRtts]
  | cons p rest ih =>
      rw [run_fold, run_step_eq, ih]
      simp [sentCount, validCount, repliesRtts, Nat.add_assoc, List.append_assoc]

theorem sentCount_eq_length (probes : List (Nat × TransportResult))
    (h : ∀ p ∈ probes, p.2 ≠ TransportResult.failure) :
    sentCount probes = probes.length := by
  induction probes with
  | nil => rfl
  | cons p rest ih =>
      have hp : p.2 ≠ TransportResult.failure := h p (List.mem_cons_self p rest)
      have hc : countedOne p.2 = 1 := by
        cases htr : p.2 with
        | reply data rtt => rfl
        | timeout => rfl
        | failure => exact absurd htr hp
      rw [sentCount, hc, ih fun q hq => h q (List.mem_cons_of_mem p hq)]
      simp [Nat.add_comm]

theorem validCount_le_length_repliesRtts (probes : List (Nat × TransportResult)) :
    validCount probes ≤ (repliesRtts probes).length := by
  induction probes with
  | nil => simp [validCount, repliesRtts]
  | cons p rest ih =>
      have hone : validOne p.2 ≤ (rttsOf p.2).length := by
        cases p.2 with
        | reply data rtt => by_cases h : calculate_checksum data = 65535 <;>
            simp [validOne, rttsOf, h]
        | timeout => simp [validOne, rttsOf]
        | failure => simp [validOne, rttsOf]
      rw [validCount, repliesRtts]
      simpa using Nat.add_le_add hone ih

theorem summary_statistics_eq (st : ClientState) (t : Nat)
    (h0 : st.request_count ≠ 0) (hle : st.reply_count ≤ st.rtt_list.length) :
    summary_statistics st t =
      some { transmitted := st.request_count, received := st.reply_count,
             loss := roundHalfEven ((st.request_count - st.reply_count) * 100) st.request_count,
             total_time := t,
             rtt_min := if st.reply_count = 0 then 0 else (rtt_stats st.rtt_list).1,
             rtt_avg := if st.reply_count = 0 then 0 else (rtt_stats st.rtt_list).2.1,
             rtt_max := if st.reply_count = 0 then 0 else (rtt_stats st.rtt_list).2.2 } := by
  by_cases hr : st.reply_count = 0
  · simp [summary_statistics, h0, hr]
  · cases hl : st.rtt_list with
    | nil =>
        exfalso
        rw [hl] at hle
        simp at hle
        exact hr hle
    | cons x xs => simp [summary_statistics, h0, hr, hl]

theorem validCount_le_sentCount (probes : List (Nat × TransportResult)) :
    validCount probes ≤ sentCount probes := by
  induction probes with
  | nil => exact Nat.le_refl 0
  | cons p rest ih =>
      have hone : validOne p.2 ≤ countedOne p.2 := by
        cases p.2 with
        | reply data rtt =>
            by_cases h : calculate_checksum data = 65535 <;> simp [validOne, countedOne, h]
        | timeout => simp [validOne, countedOne]
        | failure => simp [validOne, countedOne]
      exact Nat.add_le_add hone ih

theorem sentCount_pos (probes : List (Nat × TransportResult))
    (hsome : ∃ p ∈ probes, p.2 ≠ TransportResult.failure) : 1 ≤ sentCount probes := by
  induction probes with
  | nil => simp at hsome
  | cons q rest ih =>
      obtain ⟨p, hp, hO⟩ := hsome
      rcases List.mem_cons.mp hp with hq | hmem
      · have hc : countedOne q.2 = 1 := by
          cases htr : q.2 with
          | reply data rtt => rfl
          | timeout => rfl
          | failure =>
              exfalso
              apply hO
              rw [hq, htr]
        rw [sentCount, hc]
        exact Nat.le_add_right 1 (sentCount rest)
      · have := ih ⟨p, hmem, hO⟩
        calc 1 ≤ sentCount rest := this
          _ ≤ countedOne q.2 + sentCount rest := Nat.le_add_left _ _

theorem csAux_le : ∀ (l : List Nat) (s : Nat),
    (∀ x ∈ l, x < 256) → s ≤ 65790 → csAux s l ≤ 65790
  | [], _, _, hs => hs
  | [_], _, _, hs => hs
  | a :: b :: rest, s, hb, hs => by
      show csAux (((a + b * 256) * 256 + s) % 65536 + ((a + b * 256) * 256 + s) / 65536)
        rest ≤ 65790
      refine csAux_le rest _
        (fun x hx => hb x (List.mem_cons_of_mem a (List.mem_cons_of_mem b hx))) ?_
      have ha : a < 256 := hb a (List.mem_cons_self _ _)
      have hbb : b < 256 := hb b (List.mem_cons_of_mem a (List.mem_cons_self _ _))
      omega

/-- On genuine byte strings the source checksum is bounded by
`0x100FE = 65790` — it can exceed `0xFFFF` (claim C6's failure) but
never by more than `0xFF`. -/
theorem calculate_checksum_le (l : List Nat) (h : ∀ x ∈ l, x < 256) :
    calculate_checksum l ≤ 65790 :=
  csAux_le l 0 h (by omega)

theorem csAux_pos : ∀ (l : List Nat) (s : Nat), 1 ≤ s → 1 ≤ csAux s l
  | [], _, h => h
  | [_], _, h => h
  | a :: b :: rest, s, h => by
      show 1 ≤ csAux (((a + b * 256) * 256 + s) % 65536 + ((a + b * 256) * 256 + s) / 65536)
        rest
      exact csAux_pos rest _ (by omega)

theorem csAux_mod : ∀ (l : List Nat) (s : Nat),
    csAux s l % 65535 = (s + (beWords l).sum) % 65535
  | [], s => by simp [csAux, beWords]
  | [a], s => by simp [csAux, beWords]
  | a :: b :: rest, s => by
      show csAux (((a + b * 256) * 256 + s) % 65536 + ((a + b * 256) * 256 + s) / 65536)
          rest % 65535 = (s + (beWords (a :: b :: rest)).sum) % 65535
      rw [csAux_mod rest]
      have hbw : beWords (a :: b :: rest) = (a * 256 + b) :: beWords rest := rfl
      rw [hbw, List.sum_cons]
      generalize (beWords rest).sum = T
      omega

theorem foldCarry_mod : ∀ (fuel s : Nat), foldCarry fuel s % 65535 = s % 65535
  | 0, _ => rfl
  | fuel + 1, s => by
      rw [foldCarry]
      split
      · rfl
      · rw [foldCarry_mod fuel]
        omega

/-- The source checksum agrees with the spec's reference
one's-complement checksum modulo `65535` on every byte string — the
scrambled word `(byte[2i] + byte[2i+1] * 256) * 256` is congruent to
the big-endian word `byte[2i] * 256 + byte[2i+1]` modulo `65535`, and
so is the partial end-around fold.  Equality itself fails (claim
C2). -/
theorem checksum_congruent_reference (l : List Nat) :
    calculate_checksum l % 65535 = reference_checksum l % 65535 := by
  rw [calculate_checksum, reference_checksum, foldCarry_mod]
  simpa using csAux_mod l 0

/-- Whenever `build_message` does not abort, the message it builds
does satisfy the round-trip law: its full checksum is exactly
`0xFFFF`.  The final checksum is congruent to `0` modulo `65535`
(draft sum plus flipped checksum), positive (the first word is
`0x0800`), and at most `65790 < 2 * 65535`, hence equal to `65535`.
With `calculate_checksum_le` this shows the overflow abort of claim C1
is the only way the law can fail. -/
theorem csAux_cons_cons (a b : Nat) (rest : List Nat) (s : Nat) :
    csAux s (a :: b :: rest) =
      csAux (((a + b * 256) * 256 + s) % 65536 + ((a + b * 256) * 256 + s) / 65536) rest :=
  rfl

theorem build_message_checksum (seq ident ts : Nat) (M : List Nat)
    (h : build_message seq ident ts = some M) :
    calculate_checksum M = 65535 := by
  by_cases h1 : seq < 65536 ∧ ident < 65536 ∧ ts < 2 ^ 48
  · by_cases h2 : (0 : Int) ≤ bit_flip (calculate_checksum (draft_message seq ident ts)) ∧
        bit_flip (calculate_checksum (draft_message seq ident ts)) < 65536
    · simp only [build_message] at h
      rw [if_pos h1, if_pos h2] at h
      have hM := (Option.some.injEq _ _).mp h
      have hcle : calculate_checksum (draft_message seq ident ts) ≤ 65535 := by
        have := h2.1
        rw [bit_flip] at this
        omega
      have hflip : (bit_flip (calculate_checksum (draft_message seq ident ts))).toNat =
          65535 - calculate_checksum (draft_message seq ident ts) := by
        rw [bit_flip]
        omega
      rw [hflip] at hM
      have hMeq : M = [8, 0,
          (65535 - calculate_checksum (draft_message seq ident ts)) / 256 % 256,
          (65535 - calculate_checksum (draft_message seq ident ts)) % 256,
          ident / 256 % 256, ident % 256, seq / 256 % 256, seq % 256,
          ts / 2 ^ 40 % 256, ts / 2 ^ 32 % 256, ts / 2 ^ 24 % 256, ts / 2 ^ 16 % 256,
          ts / 2 ^ 8 % 256, ts % 256] := by
        rw [← hM]
        simp [toBytes2, toBytes6]
      have hbytes : ∀ x ∈ M, x < 256 := by
        rw [hMeq]
        intro x hx
        simp only [List.mem_cons, List.not_mem_nil, or_false] at hx
        rcases hx with rfl | rfl | rfl | rfl | rfl | rfl | rfl | rfl | rfl | rfl | rfl |
          rfl | rfl | rfl <;> omega
      have hub : calculate_checksum M ≤ 65790 := calculate_checksum_le M hbytes
      have hpos : 1 ≤ calculate_checksum M := by
        rw [hMeq, calculate_checksum, csAux_cons_cons]
        exact csAux_pos _ _ (by norm_num)
      have hmodM : calculate_checksum M % 65535 = (beWords M).sum % 65535 := by
        rw [calculate_checksum]
        simpa using csAux_mod M 0
      have hmodD : calculate_checksum (draft_message seq ident ts) % 65535 =
          (beWords (draft_message seq ident ts)).sum % 65535 := by
        rw [calculate_checksum]
        simpa using csAux_mod (draft_message seq ident ts) 0
      have hsum : (beWords M).sum = (beWords (draft_message seq ident ts)).sum +
          (65535 - calculate_checksum (draft_message seq ident ts)) := by
        rw [hMeq]
        simp [beWords, draft_message, toBytes2, toBytes6]
        omega
      have hzero : calculate_checksum M % 65535 = 0 := by
        rw [hmodM, hsum]
        generalize hT : (beWords (draft_message seq ident ts)).sum = T
        rw [hT] at hmodD
        omega
      omega
    · exfalso
      simp only [build_message] at h
      rw [if_pos h1, if_neg h2] at h
      exact Option.noConfusion h
  · exfalso
    simp only [build_message] at h
    rw [if_neg h1] at h
    exact Option.noConfusion h

/-- C1: the round-trip integrity law fails on the code.  At sequence
number `1`, identifier `0` and 48-bit timestamp `63487` the draft
checksum is `65536 > 0xFFFF` (the scrambled word construction of
`calculate_checksum` overflows 16 bits), so `bit_flip` of it is
negative and `build_message` aborts (`OverflowError` from
`to_bytes(2, 'big')` in the source) instead of yielding a 14-byte
message whose `calculate_checksum` is `0xFFFF`. -/
theorem C1_build_message_aborts :
    build_message 1 0 63487 = none ∧
    calculate_checksum (draft_message 1 0 63487) = 65536 ∧
    bit_flip (calculate_checksum (draft_message 1 0 63487)) < 0 := by
  refine ⟨by decide, by decide, by decide⟩

/-- C2: `calculate_checksum` does not equal the reference
one's-complement checksum on every even-length byte string: on
`[0, 7, 255, 255]` the code returns `65542` while the big-endian word
sum with end-around carry folds to `7` (the two values are congruent
modulo `65535` but not equal). -/
theorem C2_checksum_differs_from_reference :
    calculate_checksum [0, 7, 255, 255] = 65542 ∧
    reference_checksum [0, 7, 255, 255] = 7 ∧
    calculate_checksum [0, 7, 255, 255] ≠ reference_checksum [0, 7, 255, 255] := by
  refine ⟨by decide, by decide, by decide⟩

/-- C3: containment of non-timeout transport failures fails in the
code.  `send_ping` catches only `socket.timeout`, so a bind/send/receive
failure other than a timeout escapes `send_ping` uncaught (`none`); the
probe is not recorded as timed out and the shared state after the
thread dies is unchanged — in particular the sent counter is not
incremented. -/
theorem C3_failure_not_contained (st : ClientState) (seq : Nat) :
    send_ping st seq TransportResult.failure = none ∧
    run_step st seq TransportResult.failure = st :=
  ⟨rfl, rfl⟩

/-- C4: the fixed-period dispatch schedule fails in the code.  `run`
starts every `threading.Timer` immediately with `interval = period`, so
in a run of `3` probes with period `1` the per-probe delays are
`[0, 1, 1]`: probe `3`'s timer delay is `1`, not `(3 - 1) * 1 = 2` as
the claim requires. -/
theorem C4_delays_not_spaced :
    dispatch_delays 3 1 = [0, 1, 1] ∧ (dispatch_delays 3 1).getD 2 0 ≠ (3 - 1) * 1 := by
  refine ⟨by decide, by decide⟩

/-- C5: in a run of `N ≥ 1` probes each of which reaches one of its
terminal states (replied, checksum-invalid, or timed-out — i.e. no
probe dies from an uncaught transport failure), every terminal
transition increments the sent counter exactly once, so the final
`request_count` equals `N` and the summary reports `N` as the
transmitted count. -/
theorem C5_transmitted_equals_probe_count (probes : List (Nat × TransportResult)) (t : Nat)
    (hne : probes ≠ [])
    (hterm : ∀ p ∈ probes, p.2 ≠ TransportResult.failure) :
    (run_fold initState probes).request_count = probes.length ∧
    Option.map Summary.transmitted (summary_statistics (run_fold initState probes) t) =
      some probes.length := by
  have hreq : (run_fold initState probes).request_count = probes.length := by
    rw [run_fold_eq, sentCount_eq_length probes hterm]
    simp [initState]
  have h0 : (run_fold initState probes).request_count ≠ 0 := by
    rw [hreq]
    exact Nat.pos_iff_ne_zero.mp (List.length_pos.mpr hne)
  have hle : (run_fold initState probes).reply_count ≤
      (run_fold initState probes).rtt_list.length := by
    rw [run_fold_eq]
    simpa [initState] using validCount_le_length_repliesRtts probes
  refine ⟨hreq, ?_⟩
  rw [summary_statistics_eq _ t h0 hle]
  simp [hreq]

/-- Witness for C5: a run of one timed-out probe reports one probe
transmitted. -/
theorem C5_witness :
    (run_fold initState [(1, TransportResult.timeout)]).request_count = 1 ∧
    Option.map Summary.transmitted
        (summary_statistics (run_fold initState [(1, TransportResult.timeout)]) 0) =
      some 1 :=
  C5_transmitted_equals_probe_count [(1, TransportResult.timeout)] 0 (by decide) (by decide)

/-- C6: `calculate_checksum` is not u16-valued: on the even-length byte
string `[0, 255, 255, 255]` it returns `65790 > 0xFFFF`, and `bit_flip`
of that value is negative, so it could not be re-embedded as the 2-byte
checksum field (`to_bytes(2, 'big')` raises on a negative value). -/
theorem C6_checksum_exceeds_u16 :
    calculate_checksum [0, 255, 255, 255] = 65790 ∧
    65535 < calculate_checksum [0, 255, 255, 255] ∧
    bit_flip (calculate_checksum [0, 255, 255, 255]) < 0 := by
  refine ⟨by decide, by decide, by decide⟩

/-- C7: when a run in which at least one probe terminated normally ends
with zero replies received (`reply_count = 0`), the summary succeeds
and reports the fixed all-zero RTT placeholder `0/0/0` instead of
aggregating over the RTT collection (which may even be nonempty, from
checksum-invalid replies). -/
theorem C7_zero_replies_placeholder (probes : List (Nat × TransportResult)) (t : Nat)
    (hsome : ∃ p ∈ probes, p.2 ≠ TransportResult.failure)
    (hzero : (run_fold initState probes).reply_count = 0) :
    Option.map (fun s => (s.received, s.rtt_min, s.rtt_avg, s.rtt_max))
        (summary_statistics (run_fold initState probes) t) = some (0, 0, 0, 0) := by
  have h0 : (run_fold initState probes).request_count ≠ 0 := by
    rw [run_fold_eq]
    have := sentCount_pos probes hsome
    simp [initState]
    omega
  have hle : (run_fold initState probes).reply_count ≤
      (run_fold initState probes).rtt_list.length := by
    rw [hzero]
    exact Nat.zero_le _
  rw [summary_statistics_eq _ t h0 hle]
  simp [hzero]

/-- Witness for C7: one probe whose reply has a bad checksum — the RTT
list is nonempty but `reply_count = 0`, and the summary reports
`0` received and `0/0/0` RTT. -/
theorem C7_witness :
    Option.map (fun s => (s.received, s.rtt_min, s.rtt_avg, s.rtt_max))
        (summary_statistics
          (run_fold initState [(1, TransportResult.reply [0, 7, 255, 255] 9)]) 4) =
      some (0, 0, 0, 0) :=
  C7_zero_replies_placeholder [(1, TransportResult.reply [0, 7, 255, 255] 9)] 4
    (by decide) (by decide)

/-- C8: for a reply received within the deadline, `send_ping` reads the
sequence number from byte offset `6..8` independently of checksum
validity; when the full-message checksum is not `65535` it emits a
warning carrying that sequence number, increments the sent counter but
not the reply counter; the reply counter is incremented exactly in the
other branch, when the checksum equals `65535`. -/
theorem C8_invalid_reply_warning (st : ClientState) (seq : Nat) (data : List Nat) (rtt : Nat) :
    (calculate_checksum data ≠ 65535 →
      send_ping st seq (TransportResult.reply data rtt) =
        some ({ st with request_count := st.request_count + 1,
                        rtt_list := st.rtt_list ++ [rtt] },
          startEvents seq ++ [Event.warning (seq_from_reply data)])) ∧
    (calculate_checksum data = 65535 →
      send_ping st seq (TransportResult.reply data rtt) =
        some ({ st with request_count := st.request_count + 1,
                        reply_count := st.reply_count + 1,
                        rtt_list := st.rtt_list ++ [rtt] },
          startEvents seq ++ [Event.pong (seq_from_reply data) rtt])) := by
  constructor
  · intro h
    simp [send_ping, h]
  · intro h
    simp [send_ping, h]

/-- Witness for C8: a reply whose checksum is invalid (sum `2047`)
produces a warning carrying sequence number `2047` read from bytes
`6..8`, increments `request_count` and leaves `reply_count` at `0`. -/
theorem C8_witness :
    send_ping initState 2 (TransportResult.reply [0, 0, 0, 0, 0, 0, 7, 255] 9) =
      some ({ request_count := 1, reply_count := 0, rtt_list := [9] },
        [Event.warning 2047]) := by
  have h := (C8_invalid_reply_warning initState 2 [0, 0, 0, 0, 0, 0, 7, 255] 9).1 (by decide)
  simpa [startEvents, seq_from_reply, int_from_bytes, initState] using h

/-- C9: every in-time reply's RTT is appended to the shared RTT list
before checksum validation, so the final `rtt_list` is exactly the RTTs
of all in-time replies (valid and invalid), and when at least one valid
reply was received the summary's min/avg/max are computed over that
whole list. -/
theorem C9_rtt_includes_invalid (probes : List (Nat × TransportResult)) (t : Nat)
    (hvalid : 1 ≤ (run_fold initState probes).reply_count) :
    (run_fold initState probes).rtt_list = repliesRtts probes ∧
    Option.map (fun s => (s.rtt_min, s.rtt_avg, s.rtt_max))
        (summary_statistics (run_fold initState probes) t) =
      some (rtt_stats (repliesRtts probes)) := by
  have hrtt : (run_fold initState probes).rtt_list = repliesRtts probes := by
    rw [run_fold_eq]
    simp [initState]
  have hvc : 1 ≤ validCount probes := by
    rw [run_fold_eq] at hvalid
    simpa [initState] using hvalid
  have h0 : (run_fold initState probes).request_count ≠ 0 := by
    rw [run_fold_eq]
    have h1 := validCount_le_sentCount probes
    simp [initState]
    omega
  have hle : (run_fold initState probes).reply_count ≤
      (run_fold initState probes).rtt_list.length := by
    rw [run_fold_eq]
    simpa [initState] using validCount_le_length_repliesRtts probes
  have hr0 : (run_fold initState probes).reply_count ≠ 0 := by omega
  refine ⟨hrtt, ?_⟩
  rw [summary_statistics_eq _ t h0 hle]
  simp [hr0, hrtt]

/-- Witness for C9: a run with one valid reply (RTT `5`) and one
checksum-invalid reply (RTT `11`): the RTT list is `[5, 11]` and the
summary computes min/avg/max `= 5/8/11` over both. -/
theorem C9_witness :
    (run_fold initState [(1, TransportResult.reply [255, 255] 5),
        (2, TransportResult.reply [0, 7, 255, 255] 11)]).rtt_list = [5, 11] ∧
    Option.map (fun s => (s.rtt_min, s.rtt_avg, s.rtt_max))
        (summary_statistics (run_fold initState [(1, TransportResult.reply [255, 255] 5),
          (2, TransportResult.reply [0, 7, 255, 255] 11)]) 0) =
      some (5, 8, 11) := by
  have h := C9_rtt_includes_invalid [(1, TransportResult.reply [255, 255] 5),
    (2, TransportResult.reply [0, 7, 255, 255] 11)] 0 (by decide)
  exact h

/-- C10: `summary_statistics` divides by `request_count` with no zero
guard — from a state with `request_count = 0` (such as the initial
state) it fails (`ZeroDivisionError`, modelled as `none`); but in any
run in which at least one probe terminates via the reply or timeout
path the request counter is at least `1`, so the division is safe and
the summary is produced. -/
theorem C10_loss_division_safe (probes : List (Nat × TransportResult)) (t : Nat)
    (hsome : ∃ p ∈ probes, p.2 ≠ TransportResult.failure) :
    1 ≤ (run_fold initState probes).request_count ∧
    summary_statistics (run_fold initState probes) t ≠ none ∧
    summary_statistics initState t = none := by
  have h0 : 1 ≤ (run_fold initState probes).request_count := by
    rw [run_fold_eq]
    have := sentCount_pos probes hsome
    simp [initState]
    omega
  have hle : (run_fold initState probes).reply_count ≤
      (run_fold initState probes).rtt_list.length := by
    rw [run_fold_eq]
    simpa [initState] using validCount_le_length_repliesRtts probes
  refine ⟨h0, ?_, by simp [summary_statistics, initState]⟩
  rw [summary_statistics_eq _ t (by omega) hle]
  simp

/-- Witness for C10: a run of two timed-out probes has `request_count =
2 ≥ 1` and a defined summary, while the zero-request initial state has
none. -/
theorem C10_witness :
    1 ≤ (run_fold initState [(1, TransportResult.timeout),
        (2, TransportResult.timeout)]).request_count ∧
    summary_statistics (run_fold initState [(1, TransportResult.timeout),
        (2, TransportResult.timeout)]) 3 ≠ none ∧
    summary_statistics initState 3 = none :=
  C10_loss_division_safe [(1, TransportResult.timeout), (2, TransportResult.timeout)] 3
    (by decide)

end PingClient
